import Mathlib

/-!
Verification of the CRA (Community Reporting Area) seismic-risk aggregation
pipeline: a shallow embedding of the pure computational core of
`cra_data_pipeline.py` / `cra_stats_compiler.py` / `permits_data_cleaner.py`,
with theorems settling the behavioural claims about it.

Modelling conventions:
- pandas/geopandas tables are lists of records; `NaN` / `pd.NA` cells are
  `Option` values (`none` = missing).
- polygon geometry is a finite set of unit cells (`Finset Nat`); the area of a
  polygon in square meters is its cardinality, and geometric intersection is
  set intersection.  Float arithmetic is embedded as exact `ℚ` arithmetic.
- a coordinate reference system (CRS) tag is a `String`; reprojection is an
  abstract function parameter.
-/

namespace CraPipeline

/-! ### Permit topic classifier (`permits_data_cleaner.clean_permits_data`) -/

/-- Topic tags assigned to permit descriptions; `unknown` embeds `pd.NA`. -/
inductive Topic where
  | retrofit
  | damage
  | unknown
deriving DecidableEq, BEq, Repr

/-- The fixed retrofit phrase list `RETROFIT_PHRASES` from the source. -/
def RETROFIT_PHRASES : List String :=
  ["seismic retrofit", "seismic upgrade", "seismic proof",
   "seismic home retrofit", "seismic home upgrade", "seismic home proof",
   "seismically retrofit", "seismically upgrade", "seismically proof",
   "earthquake retrofit", "earthquake upgrade", "earthquake proof",
   "earthquake home retrofit", "earthquake home upgrade", "earthquake home proof"]

/-- The fixed damage phrase list `DAMAGE_PHRASES` from the source. -/
def DAMAGE_PHRASES : List String :=
  ["seismic damage", "earthquake damage"]

/-- Auxiliary step for splitting on whitespace runs (Python `str.split()`):
fold one character onto the accumulated list of words. -/
def splitWsAux (c : Char) (acc : List (List Char)) : List (List Char) :=
  if c.isWhitespace then [] :: acc
  else
    match acc with
    | [] => [[c]]
    | w :: ws => (c :: w) :: ws

/-- Python `str.split()` with no arguments: split on whitespace runs,
dropping empty fragments. -/
def splitWs (cs : List Char) : List (List Char) :=
  (cs.foldr splitWsAux []).filter (fun w => !w.isEmpty)

/-- Whitespace collapse and lower-casing of `normalize_desc`, on characters:
`' '.join(description.split()).lower()`. -/
def normChars (cs : List Char) : List Char :=
  (List.intercalate [' '] (splitWs cs)).map Char.toLower

/-- Normalised form of one description string. -/
def normText (s : String) : String :=
  ⟨normChars s.data⟩

/-- `normalize_desc` from the source: non-string input (`none`) stays `pd.NA`,
a string is whitespace-collapsed and lower-cased. -/
def normalize_desc (d : Option String) : Option String :=
  d.map normText

/-- Does `needle` occur at the head of `hay`? -/
def matchesAt : List Char → List Char → Bool
  | [], _ => true
  | _ :: _, [] => false
  | a :: as, b :: bs => a == b && matchesAt as bs

/-- Substring containment on character lists, the semantics of Python's
`phrase in desc`. -/
def hasSegment (needle : List Char) : List Char → Bool
  | [] => needle.isEmpty
  | b :: bs => matchesAt needle (b :: bs) || hasSegment needle bs

/-- `phrase in desc` on strings: `containsPhrase desc phrase`. -/
def containsPhrase (s p : String) : Bool :=
  hasSegment p.data s.data

/-- `categorize_topic` from the source: non-string input yields `pd.NA`
(`unknown`); otherwise the retrofit list is checked first and wins, then the
damage list, then `pd.NA`. -/
def categorize_topic (d : Option String) : Topic :=
  match d with
  | none => .unknown
  | some s =>
    if RETROFIT_PHRASES.any (fun p => containsPhrase s p) then .retrofit
    else if DAMAGE_PHRASES.any (fun p => containsPhrase s p) then .damage
    else .unknown

/-! ### Geometry normalizer (`_ensure_crs` in `cra_data_pipeline.py`) -/

/-- A geometry layer: an optional CRS tag plus abstract geometry data. -/
structure GeoLayer (G : Type) where
  crs : Option String
  geom : G
deriving DecidableEq, Repr

/-- `GeoDataFrame.set_crs`: tag the layer with a CRS, leaving the geometry
coordinates untouched. -/
def set_crs {G : Type} (l : GeoLayer G) (t : String) : GeoLayer G :=
  { l with crs := some t }

/-- `_ensure_crs` from the source, parameterized by the abstract reprojection
`tf source target geom` implemented by `GeoDataFrame.to_crs`:
untagged layers are tagged only; matching layers are returned as-is; other
layers are reprojected. -/
def ensure_crs {G : Type} (tf : String → String → G → G)
    (l : GeoLayer G) (t : String) : GeoLayer G :=
  match l.crs with
  | none => set_crs l t
  | some c => if c = t then l else { crs := some t, geom := tf c t l.geom }

/-! ### Min-max normalization (`minmax` inside `compile_cra_stats`) -/

/-- `Series.max` of a vector (the source only applies it to non-empty,
non-null vectors). -/
def listMax : List ℚ → ℚ
  | [] => 0
  | x :: xs => xs.foldl max x

/-- `Series.min` of a vector. -/
def listMin : List ℚ → ℚ
  | [] => 0
  | x :: xs => xs.foldl min x

/-- `minmax` from `compile_cra_stats`: return `s * 0.0` when `max == min`,
otherwise `(s - min) / (max - min)`. -/
def minmax (s : List ℚ) : List ℚ :=
  if listMax s = listMin s then s.map (fun x => x * 0)
  else s.map (fun x => (x - listMin s) / (listMax s - listMin s))

/-! ### Ratio columns (`compile_cra_stats`, permit share and rate) -/

/-- `Series.replace({0: np.nan})` on one cell. -/
def replaceZeroWithNan (x : ℚ) : Option ℚ :=
  if x = 0 then none else some x

/-- NaN-propagating division of a number by a possibly-NaN denominator. -/
def nanDiv (a : ℚ) (b : Option ℚ) : Option ℚ :=
  b.map (fun d => a / d)

/-- `retrofit_share_permits = RETROFIT_PERMIT_COUNT /
BLDG_PERMIT_COUNT.replace({0: np.nan})`. -/
def retrofit_share_permits (retro bldg : ℚ) : Option ℚ :=
  nanDiv retro (replaceZeroWithNan bldg)

/-- `retrofit_rate_per_10k = RETROFIT_PERMIT_COUNT /
population.replace({0: np.nan}) * 10000`; the population cell may already be
missing (`none`). -/
def retrofit_rate_per_10k (retro : ℚ) (pop : Option ℚ) : Option ℚ :=
  (nanDiv retro (pop.bind replaceZeroWithNan)).map (fun x => x * 10000)

/-! ### Hazard overlap calculator (`_find_eca_cra_overlaps`) -/

/-- Python `str.upper()`: uppercase every character. -/
def upperName (s : String) : String :=
  ⟨s.data.map Char.toUpper⟩

/-- Square meters per acre, the fixed constant `4046.8564224`. -/
def acreSqMeters : ℚ := 40468564224 / 10000000

/-- Square meters per square mile, the fixed constant `2589988.110336`. -/
def sqMileSqMeters : ℚ := 2589988110336 / 1000000

/-- One input row of the reporting-area table handed to
`_find_eca_cra_overlaps`: key, land geometry (already in the equal-area
projection; one cell = 1 m²) and the precomputed `AREA_ACRES` column. -/
structure OverlapCra where
  cra_no : Nat
  geom : Finset Nat
  area_acres : ℚ
deriving DecidableEq

/-- One output row of `_find_eca_cra_overlaps`: the three added columns
`<KIND>_ACRES`, `<KIND>_SQ_MILES`, `<KIND>_RELATIVE` (`none` = NaN). -/
structure OverlapRes where
  cra_no : Nat
  area_acres : ℚ
  overlapAcres : Option ℚ
  overlapSqMiles : Option ℚ
  overlapRelative : Option ℚ
deriving DecidableEq, Repr

/-- The rows that `gpd.overlay(..., how='intersection')` produces for one
reporting area: one `(CRA_NO, area-in-m²)` pair per hazard zone with a
non-empty intersection. -/
def overlapBlock (ecas : List (Finset Nat)) (c : OverlapCra) : List (Nat × ℚ) :=
  ecas.filterMap (fun e =>
    if c.geom ∩ e = ∅ then none else some (c.cra_no, ((c.geom ∩ e).card : ℚ)))

/-- All rows of the overlay result, in input order. -/
def overlayPairs (cras : List OverlapCra) (ecas : List (Finset Nat)) :
    List (Nat × ℚ) :=
  cras.flatMap (overlapBlock ecas)

/-- `groupby('CRA_NO')['overlap_sq_meters'].sum()` followed by the left-merge
lookup: the summed overlap for key `k`, or `none` (NaN after the left merge)
when no overlay row carries `k`. -/
def groupedOverlap (cras : List OverlapCra) (ecas : List (Finset Nat))
    (k : Nat) : Option ℚ :=
  let l := (overlayPairs cras ecas).filter (fun p => p.1 == k)
  if l.isEmpty then none else some ((l.map Prod.snd).sum)

/-- The computational body of `_find_eca_cra_overlaps`: overlay, group-sum,
unit conversion, left merge back onto the reporting areas, and the relative
column `<KIND>_ACRES / AREA_ACRES`. -/
def overlapRows (cras : List OverlapCra) (ecas : List (Finset Nat)) :
    List OverlapRes :=
  cras.map (fun c =>
    { cra_no := c.cra_no
      area_acres := c.area_acres
      overlapAcres := (groupedOverlap cras ecas c.cra_no).map
        (fun x => x / acreSqMeters)
      overlapSqMiles := (groupedOverlap cras ecas c.cra_no).map
        (fun x => x / sqMileSqMeters)
      overlapRelative := ((groupedOverlap cras ecas c.cra_no).map
        (fun x => x / acreSqMeters)).map (fun a => a / c.area_acres) })

/-- The summed intersection area (in m², i.e. cells) of one reporting area
with every hazard zone of a kind — the quantity the group-sum of
`_find_eca_cra_overlaps` computes for an area that intersects at least one
zone. -/
def sumInterCard (s : Finset Nat) (zs : List (Finset Nat)) : Nat :=
  (zs.map (fun z => (s ∩ z).card)).sum

/-- `_find_eca_cra_overlaps` with its leading configuration validation: the
column-name kind must be non-empty and must not case-insensitively equal
"AREA". -/
def find_eca_cra_overlaps (pfx : String) (cras : List OverlapCra)
    (ecas : List (Finset Nat)) : Except String (List OverlapRes) :=
  if pfx = "" then .error "Prefix cannot be empty"
  else if upperName pfx = "AREA" then
    .error "Prefix cannot be \"AREA\", must choose a name not in CRA dataset already."
  else .ok (overlapRows cras ecas)

/-- The format dispatch at the top of `clean_permits_data`: only the literals
"csv" and "json" are supported, anything else raises `ValueError`. -/
def readPermitsFile (fmt : String) : Except String String :=
  if fmt = "csv" then .ok "read_csv"
  else if fmt = "json" then .ok "read_json"
  else .error ("Expected one of \"csv\" or \"json\" for data_file_fmt, got " ++ fmt)

/-! ### Point attribution joiner (`gpd.sjoin(..., how='left', predicate='within')`) -/

/-- Indices of the polygons containing point `p`, in polygon order. -/
def matchIdxs {P G : Type} (within : P → G → Bool) (polys : List G) (p : P) :
    List Nat :=
  ((polys.enum).filter (fun ig => within p ig.2)).map Prod.fst

/-- Left spatial join as geopandas performs it: each point row is emitted once
per containing polygon, or once with a null `index_right` when no polygon
contains it.  Output rows are `(left index, matched polygon index?)`. -/
def sjoin_left {P G : Type} (within : P → G → Bool) (points : List P)
    (polys : List G) : List (Nat × Option Nat) :=
  (points.enum).flatMap (fun ip =>
    let ms := matchIdxs within polys ip.2
    if ms.isEmpty then [(ip.1, none)] else ms.map (fun j => (ip.1, some j)))

/-- Point-in-polygon test used by the concrete instances below: the polygon is
a list of cells and `within` is cell membership. -/
def memB (p : Nat) (g : List Nat) : Bool :=
  g.contains p

/-! ### Permit counts per reporting area (`_add_cra_permit_counts`) -/

/-- One cleaned permit row as consumed by `_add_cra_permit_counts`: its
computed reporting-area key (`none` = point in no area) and its topic. -/
structure PermitRow where
  cra : Option Nat
  topic : Topic
deriving DecidableEq, Repr

/-- One output row of `_add_cra_permit_counts`. -/
structure CraCountRow where
  cra_no : Nat
  bldg_permit_count : Nat
  retrofit_permit_count : Nat
deriving DecidableEq, Repr

/-- `groupby(['CRA_NO']).size()`: the table of distinct keys with their
occurrence counts (pandas drops null keys before grouping). -/
def groupSizes (keys : List Nat) : List (Nat × Nat) :=
  keys.dedup.map (fun k => (k, keys.count k))

/-- The left-merge-then-`fillna(0)` lookup of a grouped count. -/
def lookupCount (tbl : List (Nat × Nat)) (k : Nat) : Nat :=
  match tbl.find? (fun p => p.1 == k) with
  | some p => p.2
  | none => 0

/-- `_add_cra_permit_counts`: total permits and retrofit-topic permits per
reporting area, unmatched areas filled with 0. -/
def add_cra_permit_counts (cras : List Nat) (permits : List PermitRow) :
    List CraCountRow :=
  let permitsByCra := groupSizes (permits.filterMap PermitRow.cra)
  let retrofitsByCra :=
    groupSizes ((permits.filter (fun p => p.topic == Topic.retrofit)).filterMap
      PermitRow.cra)
  cras.map (fun k =>
    { cra_no := k
      bldg_permit_count := lookupCount permitsByCra k
      retrofit_permit_count := lookupCount retrofitsByCra k })

/-! ### Output schema of `compile_cra_stats` by optional-layer availability -/

/-- The three column names `_find_eca_cra_overlaps` adds for a given kind. -/
def overlapCols (pfx : String) : List String :=
  [upperName (pfx ++ "_acres"), upperName (pfx ++ "_sq_miles"),
   upperName (pfx ++ "_relative")]

/-- Columns the URM section of `compile_cra_stats` adds to the table.  When
the layer is present, the merge brings `n_urm`, `risk_weighted` and one
`n_urm_<flag>` column per optional flag column of the URM file; the code then
creates `n_urm_confirmed_retrofit` if the merge did not, and appends the
derived columns.  When the layer is absent, a fixed list is zero/null
filled. -/
def urmBranchCols (present hasLiqFlag hasSlideFlag hasRetroFlag : Bool) :
    List String :=
  if present then
    ["n_urm", "risk_weighted"]
    ++ (if hasLiqFlag then ["n_urm_eca_liquefaction"] else [])
    ++ (if hasSlideFlag then ["n_urm_eca_potential_slide"] else [])
    ++ (if hasRetroFlag then ["n_urm_confirmed_retrofit"] else [])
    ++ (if hasRetroFlag then [] else ["n_urm_confirmed_retrofit"])
    ++ ["n_urm_liq", "n_urm_slide", "n_urm_retrofit", "risk_score",
        "urm_retrofit_share"]
  else
    ["n_urm", "risk_weighted", "n_urm_liq", "n_urm_slide", "n_urm_retrofit",
     "risk_score", "urm_retrofit_share"]

/-- Columns the permits section adds: the merge of `_add_cra_permit_counts`
when the layer is present, literal zero columns otherwise. -/
def permitsBranchCols (present : Bool) : List String :=
  if present then ["BLDG_PERMIT_COUNT", "RETROFIT_PERMIT_COUNT"]
  else ["BLDG_PERMIT_COUNT", "RETROFIT_PERMIT_COUNT"]

/-- Columns appended after all optional-layer sections. -/
def tailCols : List String :=
  ["population", "retrofit_share_permits", "retrofit_rate_per_10k",
   "risk_index", "mitigation_index"]

/-- The column names `compile_cra_stats` appends to the base reporting-area
table, as a function of which optional layers are supplied (`liq`, `slide`,
`urm`, `permits`) and of which optional flag columns the URM file carries. -/
def compileSchema (base : List String)
    (liq slide urm hasLiqFlag hasSlideFlag hasRetroFlag permits : Bool) :
    List String :=
  base
  ++ (if liq then overlapCols "liquefaction"
      else ["LIQUEFACTION_ACRES", "LIQUEFACTION_SQ_MILES",
            "LIQUEFACTION_RELATIVE"])
  ++ (if slide then overlapCols "slide"
      else ["SLIDE_ACRES", "SLIDE_SQ_MILES", "SLIDE_RELATIVE"])
  ++ urmBranchCols urm hasLiqFlag hasSlideFlag hasRetroFlag
  ++ permitsBranchCols permits
  ++ tailCols

/-! ## Theorems -/

/-! ### C5: minmax on uniform vectors -/

lemma foldl_max_uniform (c : ℚ) :
    ∀ l : List ℚ, (∀ x ∈ l, x = c) → l.foldl max c = c := by
  intro l
  induction l with
  | nil => intro _; rfl
  | cons x xs ih =>
    intro h
    have hx : x = c := h x (List.mem_cons_self x xs)
    have hxs : ∀ y ∈ xs, y = c := fun y hy => h y (List.mem_cons_of_mem x hy)
    simp only [List.foldl_cons, hx, max_self]
    exact ih hxs

lemma foldl_min_uniform (c : ℚ) :
    ∀ l : List ℚ, (∀ x ∈ l, x = c) → l.foldl min c = c := by
  intro l
  induction l with
  | nil => intro _; rfl
  | cons x xs ih =>
    intro h
    have hx : x = c := h x (List.mem_cons_self x xs)
    have hxs : ∀ y ∈ xs, y = c := fun y hy => h y (List.mem_cons_of_mem x hy)
    simp only [List.foldl_cons, hx, min_self]
    exact ih hxs

lemma listMax_uniform (s : List ℚ) (c : ℚ) (h1 : s ≠ []) (h2 : ∀ x ∈ s, x = c) :
    listMax s = c := by
  cases s with
  | nil => exact absurd rfl h1
  | cons x xs =>
    have hx : x = c := h2 x (List.mem_cons_self x xs)
    have hxs : ∀ y ∈ xs, y = c := fun y hy => h2 y (List.mem_cons_of_mem x hy)
    simpa [listMax, hx] using foldl_max_uniform c xs hxs

lemma listMin_uniform (s : List ℚ) (c : ℚ) (h1 : s ≠ []) (h2 : ∀ x ∈ s, x = c) :
    listMin s = c := by
  cases s with
  | nil => exact absurd rfl h1
  | cons x xs =>
    have hx : x = c := h2 x (List.mem_cons_self x xs)
    have hxs : ∀ y ∈ xs, y = c := fun y hy => h2 y (List.mem_cons_of_mem x hy)
    simpa [listMin, hx] using foldl_min_uniform c xs hxs

/-- C5: on a non-empty vector whose entries are all equal, the `max == min`
guard of `minmax` fires (so the division branch is unreachable) and the
result is an all-zero vector of the same length, never NaN/undefined. -/
theorem minmax_uniform_all_zero (s : List ℚ) (c : ℚ)
    (h1 : s ≠ []) (h2 : ∀ x ∈ s, x = c) :
    listMax s = listMin s ∧ minmax s = List.replicate s.length 0 := by
  have hmax : listMax s = c := listMax_uniform s c h1 h2
  have hmin : listMin s = c := listMin_uniform s c h1 h2
  have hguard : listMax s = listMin s := hmax.trans hmin.symm
  refine ⟨hguard, ?_⟩
  rw [minmax, if_pos hguard]
  apply List.eq_replicate_iff.mpr
  constructor
  · simp
  · intro b hb
    obtain ⟨x, _, hx⟩ := List.mem_map.mp hb
    simpa [mul_zero] using hx.symm

/-- C5 witness: the uniform vector `[5, 5, 5]`. -/
theorem minmax_uniform_all_zero_witness :
    ([(5 : ℚ), 5, 5] ≠ []) ∧ (∀ x ∈ [(5 : ℚ), 5, 5], x = 5) ∧
      (listMax [(5 : ℚ), 5, 5] = listMin [(5 : ℚ), 5, 5] ∧
        minmax [(5 : ℚ), 5, 5] = List.replicate 3 0) :=
  ⟨by simp, by simp,
    minmax_uniform_all_zero [(5 : ℚ), 5, 5] 5 (by simp) (by simp)⟩

/-! ### C6: null-propagating ratio columns -/

/-- C6: `retrofit_share_permits` is `RETROFIT_PERMIT_COUNT /
BLDG_PERMIT_COUNT`, null when the denominator is 0; `retrofit_rate_per_10k`
is `RETROFIT_PERMIT_COUNT / population * 10000`, null when the population is
0 or missing — never an arithmetic error and never coerced to 0. -/
theorem ratio_columns_null_on_zero_denominator (retro bldg : ℚ)
    (pop : Option ℚ) :
    (bldg = 0 → retrofit_share_permits retro bldg = none) ∧
    (bldg ≠ 0 → retrofit_share_permits retro bldg = some (retro / bldg)) ∧
    (pop = none → retrofit_rate_per_10k retro pop = none) ∧
    (pop = some 0 → retrofit_rate_per_10k retro pop = none) ∧
    (∀ v, pop = some v → v ≠ 0 →
      retrofit_rate_per_10k retro pop = some (retro / v * 10000)) := by
  refine ⟨?_, ?_, ?_, ?_, ?_⟩
  · intro h
    simp [retrofit_share_permits, nanDiv, replaceZeroWithNan, h]
  · intro h
    simp [retrofit_share_permits, nanDiv, replaceZeroWithNan, h]
  · intro h
    simp [retrofit_rate_per_10k, nanDiv, h]
  · intro h
    simp [retrofit_rate_per_10k, nanDiv, replaceZeroWithNan, h]
  · intro v hv hnz
    simp [retrofit_rate_per_10k, nanDiv, replaceZeroWithNan, hv, hnz]

/-- C6 witness: concrete zero, missing and non-zero denominators. -/
theorem ratio_columns_null_on_zero_denominator_witness :
    retrofit_share_permits 3 0 = none ∧
    retrofit_share_permits 3 4 = some (3 / 4) ∧
    retrofit_rate_per_10k 3 none = none ∧
    retrofit_rate_per_10k 3 (some 0) = none ∧
    retrofit_rate_per_10k 3 (some 2) = some (3 / 2 * 10000) :=
  ⟨(ratio_columns_null_on_zero_denominator 3 0 none).1 rfl,
   (ratio_columns_null_on_zero_denominator 3 4 none).2.1 (by norm_num),
   (ratio_columns_null_on_zero_denominator 3 0 none).2.2.1 rfl,
   (ratio_columns_null_on_zero_denominator 3 0 (some 0)).2.2.2.1 rfl,
   (ratio_columns_null_on_zero_denominator 3 0 (some 2)).2.2.2.2 2 rfl
     (by norm_num)⟩

/-! ### C8: configuration errors fail immediately -/

/-- C8: the hazard-overlap helper raises exactly when the column-name kind is
empty or upper-cases to "AREA" (with its two descriptive messages), succeeds
otherwise, and the permits cleaner raises exactly on a file-format literal
other than "csv" or "json". -/
theorem config_errors_raise (pfx fmt : String) (cras : List OverlapCra)
    (ecas : List (Finset Nat)) :
    ((find_eca_cra_overlaps pfx cras ecas = .error "Prefix cannot be empty") ↔
      pfx = "") ∧
    ((find_eca_cra_overlaps pfx cras ecas =
        .error "Prefix cannot be \"AREA\", must choose a name not in CRA dataset already.") ↔
      (pfx ≠ "" ∧ upperName pfx = "AREA")) ∧
    ((∃ res, find_eca_cra_overlaps pfx cras ecas = .ok res) ↔
      (pfx ≠ "" ∧ upperName pfx ≠ "AREA")) ∧
    ((∃ e, readPermitsFile fmt = .error e) ↔ (fmt ≠ "csv" ∧ fmt ≠ "json")) := by
  refine ⟨?_, ?_, ?_, ?_⟩
  · by_cases h1 : pfx = ""
    · simp [find_eca_cra_overlaps, h1]
    · by_cases h2 : upperName pfx = "AREA" <;>
        simp [find_eca_cra_overlaps, h1, h2]
  · by_cases h1 : pfx = ""
    · simp [find_eca_cra_overlaps, h1]
    · by_cases h2 : upperName pfx = "AREA" <;>
        simp [find_eca_cra_overlaps, h1, h2]
  · by_cases h1 : pfx = ""
    · simp [find_eca_cra_overlaps, h1]
    · by_cases h2 : upperName pfx = "AREA" <;>
        simp [find_eca_cra_overlaps, h1, h2]
  · by_cases hc : fmt = "csv"
    · simp [readPermitsFile, hc]
    · by_cases hj : fmt = "json" <;> simp [readPermitsFile, hc, hj]

/-- C8 witness: the empty kind, an "AREA" kind and an unsupported file
format each raise; a valid configuration succeeds. -/
theorem config_errors_raise_witness :
    find_eca_cra_overlaps "" [] [] = .error "Prefix cannot be empty" ∧
    find_eca_cra_overlaps "Area" [] [] =
      .error "Prefix cannot be \"AREA\", must choose a name not in CRA dataset already." ∧
    (∃ res, find_eca_cra_overlaps "liquefaction" [] [] = .ok res) ∧
    (∃ e, readPermitsFile "xml" = .error e) :=
  ⟨(config_errors_raise "" "csv" [] []).1.mpr rfl,
   (config_errors_raise "Area" "csv" [] []).2.1.mpr (by decide),
   (config_errors_raise "liquefaction" "csv" [] []).2.2.1.mpr (by decide),
   (config_errors_raise "" "xml" [] []).2.2.2.mpr (by decide)⟩

/-! ### C9: geometry normalizer -/

/-- C9: `_ensure_crs` tags an untagged layer with the target CRS and leaves
its geometry coordinates unchanged; it returns a layer already in the target
CRS as-is; and it reprojects (rather than re-labels) a layer declaring a
different CRS. -/
theorem ensure_crs_cases {G : Type} (tf : String → String → G → G)
    (l : GeoLayer G) (t : String) :
    (l.crs = none → ensure_crs tf l t = { crs := some t, geom := l.geom }) ∧
    (l.crs = some t → ensure_crs tf l t = l) ∧
    (∀ c, l.crs = some c → c ≠ t →
      ensure_crs tf l t = { crs := some t, geom := tf c t l.geom }) := by
  obtain ⟨crs, geom⟩ := l
  refine ⟨?_, ?_, ?_⟩
  · intro h
    simp only at h
    subst h
    rfl
  · intro h
    simp only at h
    subst h
    simp [ensure_crs]
  · intro c hc hne
    simp only at hc
    subst hc
    simp [ensure_crs, hne]

/-- C9 witness: an untagged layer is tagged without touching the geometry, a
matching layer passes through, a mismatched layer is reprojected by the
transform. -/
theorem ensure_crs_cases_witness :
    ensure_crs (fun _ _ g => g + 1) (⟨none, 0⟩ : GeoLayer Nat) "EPSG:4326" =
      ⟨some "EPSG:4326", 0⟩ ∧
    ensure_crs (fun _ _ g => g + 1) (⟨some "EPSG:4326", 0⟩ : GeoLayer Nat)
      "EPSG:4326" = ⟨some "EPSG:4326", 0⟩ ∧
    ensure_crs (fun _ _ g => g + 1) (⟨some "EPSG:2926", 0⟩ : GeoLayer Nat)
      "EPSG:4326" = ⟨some "EPSG:4326", 1⟩ :=
  ⟨(ensure_crs_cases (fun _ _ g => g + 1) ⟨none, 0⟩ "EPSG:4326").1 rfl,
   (ensure_crs_cases (fun _ _ g => g + 1) ⟨some "EPSG:4326", 0⟩
      "EPSG:4326").2.1 rfl,
   (ensure_crs_cases (fun _ _ g => g + 1) ⟨some "EPSG:2926", 0⟩
      "EPSG:4326").2.2 "EPSG:2926" rfl (by decide)⟩

/-! ### C3: permit topic classification priority -/

/-- C3: on the normalized description, any retrofit-phrase hit yields
`retrofit` (even when a damage phrase is also present, because the retrofit
list is checked first); a damage-phrase hit with no retrofit hit yields
`damage`; no hit at all, or a non-string/missing description, yields the
present-but-unknown value rather than an error. -/
theorem categorize_topic_priority (d : Option String) :
    (d = none → categorize_topic (normalize_desc d) = Topic.unknown) ∧
    (∀ s, d = some s →
      ((∃ p ∈ RETROFIT_PHRASES, containsPhrase (normText s) p = true) →
        categorize_topic (normalize_desc d) = Topic.retrofit) ∧
      ((∀ p ∈ RETROFIT_PHRASES, containsPhrase (normText s) p = false) →
       (∃ p ∈ DAMAGE_PHRASES, containsPhrase (normText s) p = true) →
        categorize_topic (normalize_desc d) = Topic.damage) ∧
      ((∀ p ∈ RETROFIT_PHRASES, containsPhrase (normText s) p = false) →
       (∀ p ∈ DAMAGE_PHRASES, containsPhrase (normText s) p = false) →
        categorize_topic (normalize_desc d) = Topic.unknown)) := by
  refine ⟨?_, ?_⟩
  · intro h
    subst h
    rfl
  · intro s hd
    subst hd
    have hnorm : normalize_desc (some s) = some (normText s) := rfl
    refine ⟨?_, ?_, ?_⟩
    · rintro ⟨p, hp, hc⟩
      have hany : RETROFIT_PHRASES.any (fun q => containsPhrase (normText s) q)
          = true := List.any_eq_true.mpr ⟨p, hp, hc⟩
      simp [categorize_topic, hnorm, hany]
    · intro hallR
      rintro ⟨p, hp, hc⟩
      have hanyR : RETROFIT_PHRASES.any (fun q => containsPhrase (normText s) q)
          = false :=
        List.any_eq_false.mpr (fun q hq => by simp [hallR q hq])
      have hanyD : DAMAGE_PHRASES.any (fun q => containsPhrase (normText s) q)
          = true := List.any_eq_true.mpr ⟨p, hp, hc⟩
      simp [categorize_topic, hnorm, hanyR, hanyD]
    · intro hallR hallD
      have hanyR : RETROFIT_PHRASES.any (fun q => containsPhrase (normText s) q)
          = false :=
        List.any_eq_false.mpr (fun q hq => by simp [hallR q hq])
      have hanyD : DAMAGE_PHRASES.any (fun q => containsPhrase (normText s) q)
          = false :=
        List.any_eq_false.mpr (fun q hq => by simp [hallD q hq])
      simp [categorize_topic, hnorm, hanyR, hanyD]

/-- C3 witness: a description holding both a retrofit and a damage phrase is
classified `retrofit`; a damage-only description is `damage`; an unrelated
description and a missing one are `unknown`. -/
theorem categorize_topic_priority_witness :
    categorize_topic (normalize_desc
      (some "Seismic   Retrofit of home, repair earthquake damage")) =
      Topic.retrofit ∧
    categorize_topic (normalize_desc
      (some "repair earthquake DAMAGE to foundation")) = Topic.damage ∧
    categorize_topic (normalize_desc (some "kitchen remodel")) =
      Topic.unknown ∧
    categorize_topic (normalize_desc none) = Topic.unknown :=
  ⟨((categorize_topic_priority
      (some "Seismic   Retrofit of home, repair earthquake damage")).2 _
        rfl).1 (by decide),
   (((categorize_topic_priority
      (some "repair earthquake DAMAGE to foundation")).2 _ rfl).2.1
        (by decide) (by decide)),
   (((categorize_topic_priority (some "kitchen remodel")).2 _ rfl).2.2
        (by decide) (by decide)),
   (categorize_topic_priority none).1 rfl⟩

/-! ### C10: permit counts per reporting area -/

lemma lookupCount_map_pairs (cnt : Nat → Nat) (k : Nat) :
    ∀ u : List Nat,
      lookupCount (u.map (fun x => (x, cnt x))) k =
        if k ∈ u then cnt k else 0 := by
  intro u
  induction u with
  | nil => simp [lookupCount]
  | cons x xs ih =>
    by_cases hx : x = k
    · subst hx
      simp [lookupCount, List.find?]
    · simp only [List.map_cons, lookupCount, List.find?] at ih ⊢
      have hbeq : (x == k) = false := by simp [hx]
      simp only [hbeq]
      rw [ih]
      have hkx : k ≠ x := fun h => hx h.symm
      simp [List.mem_cons, hkx]

lemma lookupCount_groupSizes (keys : List Nat) (k : Nat) :
    lookupCount (groupSizes keys) k = keys.count k := by
  rw [groupSizes, lookupCount_map_pairs]
  by_cases h : k ∈ keys.dedup
  · simp [h]
  · have hk : k ∉ keys := fun hmem => h (List.mem_dedup.mpr hmem)
    simp [h, List.count_eq_zero.mpr hk]

/-- C10: in every output row of `_add_cra_permit_counts`,
`RETROFIT_PERMIT_COUNT` counts the retrofit-topic subset of the very permits
counted by `BLDG_PERMIT_COUNT`, hence never exceeds it; both counts are
natural numbers, and an area matching no permit is filled with 0 rather than
dropped. -/
theorem permit_counts_retrofit_le_total (cras : List Nat)
    (permits : List PermitRow) :
    ∀ row ∈ add_cra_permit_counts cras permits,
      row.retrofit_permit_count ≤ row.bldg_permit_count ∧
      (row.cra_no ∉ permits.filterMap PermitRow.cra →
        row.bldg_permit_count = 0 ∧ row.retrofit_permit_count = 0) := by
  intro row hrow
  simp only [add_cra_permit_counts] at hrow
  obtain ⟨k, hk, rfl⟩ := List.mem_map.mp hrow
  have hsub : List.Sublist
      ((permits.filter
        (fun p => p.topic == Topic.retrofit)).filterMap PermitRow.cra)
      (permits.filterMap PermitRow.cra) :=
    (List.filter_sublist permits).filterMap PermitRow.cra
  constructor
  · simp only [lookupCount_groupSizes]
    exact hsub.count_le k
  · intro hnot
    simp only [lookupCount_groupSizes]
    constructor
    · exact List.count_eq_zero.mpr hnot
    · exact List.count_eq_zero.mpr (fun hmem => hnot (hsub.mem hmem))

/-- C10 witness: two areas, one with permits (2 total, 1 retrofit) and one
matching no permit. -/
theorem permit_counts_retrofit_le_total_witness :
    ((⟨7, 2, 1⟩ : CraCountRow).retrofit_permit_count ≤
      (⟨7, 2, 1⟩ : CraCountRow).bldg_permit_count) ∧
    ((⟨9, 0, 0⟩ : CraCountRow).cra_no ∉
        ([⟨some 7, .retrofit⟩, ⟨some 7, .unknown⟩,
          ⟨some 8, .retrofit⟩] : List PermitRow).filterMap PermitRow.cra →
      (⟨9, 0, 0⟩ : CraCountRow).bldg_permit_count = 0 ∧
      (⟨9, 0, 0⟩ : CraCountRow).retrofit_permit_count = 0) :=
  ⟨(permit_counts_retrofit_le_total [7, 9]
      [⟨some 7, .retrofit⟩, ⟨some 7, .unknown⟩, ⟨some 8, .retrofit⟩]
      ⟨7, 2, 1⟩ (by decide)).1,
   (permit_counts_retrofit_le_total [7, 9]
      [⟨some 7, .retrofit⟩, ⟨some 7, .unknown⟩, ⟨some 8, .retrofit⟩]
      ⟨9, 0, 0⟩ (by decide)).2⟩

/-! ### C4: left spatial join multiplicity -/

/-- Filtering the concatenation of per-row blocks by one row's key returns
exactly that row's block when keys are distinct and every element of a block
carries its row's key. -/
lemma filter_flatMap_block {α β : Type} (key : α → Nat) (blk : α → List β)
    (f : β → Nat) (hb : ∀ a, ∀ b ∈ blk a, f b = key a) :
    ∀ l : List α, (l.map key).Nodup → ∀ a ∈ l,
      (l.flatMap blk).filter (fun b => f b == key a) = blk a := by
  intro l
  induction l with
  | nil => intro _ a ha; exact absurd ha (List.not_mem_nil a)
  | cons x xs ih =>
    intro hnd a ha
    rw [List.flatMap_cons, List.filter_append]
    rw [List.map_cons, List.nodup_cons] at hnd
    obtain ⟨hx, hxs⟩ := hnd
    rcases List.mem_cons.mp ha with rfl | hmem
    · have h1 : (blk a).filter (fun b => f b == key a) = blk a :=
        List.filter_eq_self.mpr (fun b hbm => by simp [hb a b hbm])
      have h2 : (xs.flatMap blk).filter (fun b => f b == key a) = [] := by
        apply List.filter_eq_nil_iff.mpr
        intro b hbm
        obtain ⟨a', ha', hba'⟩ := List.mem_flatMap.mp hbm
        have hfb : f b = key a' := hb a' b hba'
        have hne : key a' ≠ key a := by
          intro hEq
          exact hx (hEq ▸ List.mem_map_of_mem key ha')
        simp [hfb, hne]
      rw [h1, h2, List.append_nil]
    · have hne : key x ≠ key a := by
        intro hEq
        exact hx (hEq ▸ List.mem_map_of_mem key hmem)
      have h1 : (blk x).filter (fun b => f b == key a) = [] := by
        apply List.filter_eq_nil_iff.mpr
        intro b hbm
        have hfb : f b = key x := hb x b hbm
        simp [hfb, hne]
      rw [h1, List.nil_append]
      exact ih hxs a hmem

/-- C4 (amended): in `gpd.sjoin(..., how='left', predicate='within')`, the
output rows carrying input point index `i` are: one null row when no polygon
contains the point, and otherwise one row per containing polygon in polygon
order — so a point inside `k > 1` polygons is duplicated into `k` rows, not
attributed to a single polygon. -/
theorem sjoin_left_multiplicity {P G : Type} (within : P → G → Bool)
    (points : List P) (polys : List G) (i : Nat) (p : P)
    (hp : points[i]? = some p) :
    ((sjoin_left within points polys).filter (fun r => r.1 == i)).map
        Prod.snd =
      (if (matchIdxs within polys p).isEmpty then [none]
       else (matchIdxs within polys p).map some) := by
  have hmem : (i, p) ∈ points.enum := by
    apply List.getElem?_mem (n := i)
    simp [List.enum, List.getElem?_enumFrom, hp]
  have hnd : (points.enum.map Prod.fst).Nodup := by
    rw [List.enum, List.enumFrom_map_fst]
    exact List.nodup_range' 0 points.length
  have hb : ∀ ip : Nat × P,
      ∀ b ∈ (let ms := matchIdxs within polys ip.2;
             if ms.isEmpty then [(ip.1, none)]
             else ms.map (fun j => (ip.1, some j))),
        b.1 = ip.1 := by
    intro ip b hbm
    simp only at hbm
    by_cases hE : (matchIdxs within polys ip.2).isEmpty
    · rw [if_pos hE] at hbm
      simp at hbm
      simp [hbm]
    · rw [if_neg hE] at hbm
      obtain ⟨j, _, hj⟩ := List.mem_map.mp hbm
      simp [← hj]
  have hfilter := filter_flatMap_block Prod.fst
    (fun ip => let ms := matchIdxs within polys ip.2;
      if ms.isEmpty then [(ip.1, none)]
      else ms.map (fun j => (ip.1, some j)))
    Prod.fst hb points.enum hnd (i, p) hmem
  have hsj : (sjoin_left within points polys).filter (fun r => r.1 == i) =
      (let ms := matchIdxs within polys p;
       if ms.isEmpty then [(i, none)]
       else ms.map (fun j => (i, some j))) := by
    simpa [sjoin_left] using hfilter
  rw [hsj]
  by_cases hE : (matchIdxs within polys p).isEmpty
  · simp [hE]
  · simp [hE, List.map_map, Function.comp]

/-- C4 witness: a point inside exactly one of the two polygons. -/
theorem sjoin_left_multiplicity_witness :
    ((sjoin_left memB [7] [[7], [5]]).filter (fun r => r.1 == 0)).map
        Prod.snd =
      (if (matchIdxs memB [[7], [5]] 7).isEmpty then [none]
       else (matchIdxs memB [[7], [5]] 7).map some) :=
  sjoin_left_multiplicity memB [7] [[7], [5]] 0 7 (by decide)

/-- C4 counterexample to the claim as stated: a single input point contained
in both polygons produces two output rows (one per polygon), so the point
row is duplicated instead of appearing exactly once with one deterministic
attribution. -/
theorem sjoin_left_duplicates_on_overlap :
    sjoin_left memB [0] [[0], [0, 5]] = [(0, some 0), (0, some 1)] ∧
    (sjoin_left memB [0] [[0], [0, 5]]).length = 2 ∧
    ((sjoin_left memB [0] [[0], [0, 5]]).filter
      (fun r => r.1 == 0)).length ≠ 1 := by
  refine ⟨by decide, by decide, by decide⟩

/-! ### C1 and C2: hazard overlap rows -/

lemma overlapBlock_key (ecas : List (Finset Nat)) (c : OverlapCra) :
    ∀ b ∈ overlapBlock ecas c, b.1 = c.cra_no := by
  intro b hb
  simp only [overlapBlock, List.mem_filterMap] at hb
  obtain ⟨e, he, hbe⟩ := hb
  by_cases h : c.geom ∩ e = ∅
  · rw [if_pos h] at hbe
    exact absurd hbe (by simp)
  · rw [if_neg h] at hbe
    injection hbe with h1
    rw [← h1]

lemma overlapBlock_eq_nil (ecas : List (Finset Nat)) (c : OverlapCra) :
    overlapBlock ecas c = [] ↔ ∀ e ∈ ecas, c.geom ∩ e = ∅ := by
  simp only [overlapBlock, List.filterMap_eq_nil_iff]
  constructor
  · intro h e he
    by_contra hne
    have hsome := h e he
    rw [if_neg hne] at hsome
    simp at hsome
  · intro h e he
    rw [if_pos (h e he)]

lemma overlapBlock_snd_sum (ecas : List (Finset Nat)) (c : OverlapCra) :
    ((overlapBlock ecas c).map Prod.snd).sum = (sumInterCard c.geom ecas : ℚ) := by
  induction ecas with
  | nil => simp [overlapBlock, sumInterCard]
  | cons e es ih =>
    by_cases h : c.geom ∩ e = ∅
    · have hstep : overlapBlock (e :: es) c = overlapBlock es c := by
        simp only [overlapBlock]
        rw [List.filterMap_cons_none (by simp [h])]
      rw [hstep, ih]
      have hcard : (c.geom ∩ e).card = 0 := by simp [h]
      simp [sumInterCard, hcard]
    · have hstep : overlapBlock (e :: es) c =
          (c.cra_no, ((c.geom ∩ e).card : ℚ)) :: overlapBlock es c := by
        simp [overlapBlock, List.filterMap_cons, h]
      rw [hstep, List.map_cons, List.sum_cons, ih]
      simp only [sumInterCard, List.map_cons, List.sum_cons]
      push_cast
      ring

lemma groupedOverlap_eq (cras : List OverlapCra) (ecas : List (Finset Nat))
    (c : OverlapCra) (hnd : (cras.map OverlapCra.cra_no).Nodup)
    (hc : c ∈ cras) :
    groupedOverlap cras ecas c.cra_no =
      if (overlapBlock ecas c).isEmpty then none
      else some (((overlapBlock ecas c).map Prod.snd).sum) := by
  have hfilter := filter_flatMap_block OverlapCra.cra_no (overlapBlock ecas)
      Prod.fst (fun a b hb => overlapBlock_key ecas a b hb) cras hnd c hc
  simp only [groupedOverlap, overlayPairs]
  rw [hfilter]

lemma sumInterCard_le_card :
    ∀ (zs : List (Finset Nat)) (s : Finset Nat),
      zs.Pairwise (fun a b => a ∩ b = ∅) → sumInterCard s zs ≤ s.card := by
  intro zs
  induction zs with
  | nil =>
    intro s _
    simp [sumInterCard]
  | cons z zs ih =>
    intro s hp
    rw [List.pairwise_cons] at hp
    obtain ⟨hz, hzs⟩ := hp
    have hrw : sumInterCard s zs = sumInterCard (s \ z) zs := by
      simp only [sumInterCard]
      congr 1
      apply List.map_congr_left
      intro z' hz'
      have hdisj : z ∩ z' = ∅ := hz z' hz'
      congr 1
      ext a
      simp only [Finset.mem_inter, Finset.mem_sdiff]
      constructor
      · rintro ⟨has, haz'⟩
        refine ⟨⟨has, ?_⟩, haz'⟩
        intro haz
        have hmem : a ∈ z ∩ z' := Finset.mem_inter.mpr ⟨haz, haz'⟩
        rw [hdisj] at hmem
        exact absurd hmem (Finset.not_mem_empty a)
      · rintro ⟨⟨has, _⟩, haz'⟩
        exact ⟨has, haz'⟩
    have hsplit : sumInterCard s (z :: zs) = (s ∩ z).card + sumInterCard s zs := by
      simp [sumInterCard]
    have hcards : (s ∩ z).card + (s \ z).card = s.card :=
      Finset.card_inter_add_card_sdiff s z
    have hle := ih (s \ z) hzs
    omega

/-- C1 (amended): every input reporting area appears exactly once (same
position) in the output of `_find_eca_cra_overlaps`; an area intersecting no
hazard zone of the kind carries null (NaN) in all three added columns — not
0 — while an area with overlap carries the summed intersection area over all
zones of the kind, converted to acres and square miles and divided by its
`AREA_ACRES`. -/
theorem overlapRows_left_join (cras : List OverlapCra)
    (ecas : List (Finset Nat))
    (hnd : (cras.map OverlapCra.cra_no).Nodup) :
    (overlapRows cras ecas).length = cras.length ∧
    ∀ (i : Nat) (c : OverlapCra), cras[i]? = some c →
      ∃ r : OverlapRes, (overlapRows cras ecas)[i]? = some r ∧
        r.cra_no = c.cra_no ∧ r.area_acres = c.area_acres ∧
        ((∀ e ∈ ecas, c.geom ∩ e = ∅) →
          r.overlapAcres = none ∧ r.overlapSqMiles = none ∧
            r.overlapRelative = none) ∧
        ((∃ e ∈ ecas, c.geom ∩ e ≠ ∅) →
          r.overlapAcres =
            some ((sumInterCard c.geom ecas : ℚ) / acreSqMeters) ∧
          r.overlapSqMiles =
            some ((sumInterCard c.geom ecas : ℚ) / sqMileSqMeters) ∧
          r.overlapRelative =
            some (((sumInterCard c.geom ecas : ℚ) / acreSqMeters) /
              c.area_acres)) := by
  constructor
  · simp [overlapRows]
  · intro i c hc
    have hmem : c ∈ cras := List.getElem?_mem hc
    have hg := groupedOverlap_eq cras ecas c hnd hmem
    refine ⟨{ cra_no := c.cra_no, area_acres := c.area_acres,
              overlapAcres := (groupedOverlap cras ecas c.cra_no).map
                (fun x => x / acreSqMeters),
              overlapSqMiles := (groupedOverlap cras ecas c.cra_no).map
                (fun x => x / sqMileSqMeters),
              overlapRelative := ((groupedOverlap cras ecas c.cra_no).map
                (fun x => x / acreSqMeters)).map
                  (fun a => a / c.area_acres) },
            by simp [overlapRows, hc], rfl, rfl, ?_, ?_⟩
    · intro hall
      have hnil : overlapBlock ecas c = [] :=
        (overlapBlock_eq_nil ecas c).mpr hall
      have hgn : groupedOverlap cras ecas c.cra_no = none := by
        rw [hg, hnil]
        rfl
      simp [hgn]
    · rintro ⟨e, he, hne⟩
      have hnnil : overlapBlock ecas c ≠ [] := by
        intro h0
        exact hne ((overlapBlock_eq_nil ecas c).mp h0 e he)
      have hgs : groupedOverlap cras ecas c.cra_no =
          some ((sumInterCard c.geom ecas : ℚ)) := by
        rw [hg, if_neg (by simpa [List.isEmpty_iff] using hnnil),
          overlapBlock_snd_sum]
      simp [hgs]

/-- C1 witness: one area with one fully overlapping zone. -/
theorem overlapRows_left_join_witness :
    ∃ r : OverlapRes, (overlapRows [⟨0, {0}, 1⟩] [{0}])[0]? = some r ∧
      r.cra_no = 0 ∧ r.area_acres = 1 ∧
      ((∀ e ∈ [({0} : Finset Nat)], ({0} : Finset Nat) ∩ e = ∅) →
        r.overlapAcres = none ∧ r.overlapSqMiles = none ∧
          r.overlapRelative = none) ∧
      ((∃ e ∈ [({0} : Finset Nat)], ({0} : Finset Nat) ∩ e ≠ ∅) →
        r.overlapAcres =
          some ((sumInterCard {0} [{0}] : ℚ) / acreSqMeters) ∧
        r.overlapSqMiles =
          some ((sumInterCard {0} [{0}] : ℚ) / sqMileSqMeters) ∧
        r.overlapRelative =
          some (((sumInterCard {0} [{0}] : ℚ) / acreSqMeters) / 1)) :=
  (overlapRows_left_join [⟨0, {0}, 1⟩] [{0}] (by decide)).2 0 ⟨0, {0}, 1⟩ rfl

/-- C1 counterexample to the claim as stated: an area intersecting no hazard
zone of the kind appears in the output with null (NaN) overlap columns, not
with the claimed value 0 — the left merge fills no zero. -/
theorem overlap_left_join_yields_null_not_zero :
    (({0} : Finset Nat) ∩ {1} = ∅) ∧
    ((overlapRows [⟨0, {0}, 1⟩] [{1}]).map OverlapRes.overlapAcres =
      [none]) ∧
    ((overlapRows [⟨0, {0}, 1⟩] [{1}]).map OverlapRes.overlapAcres ≠
      [some 0]) ∧
    ((overlapRows [⟨0, {0}, 1⟩] [{1}]).map OverlapRes.overlapRelative =
      [none]) := by
  have heval : (overlapRows [⟨0, {0}, 1⟩] [{1}]).map OverlapRes.overlapAcres
      = [none] := by
    norm_num [overlapRows, groupedOverlap, overlayPairs, overlapBlock,
      List.filterMap_cons, List.flatMap_cons, List.filter]
  have hevalRel : (overlapRows [⟨0, {0}, 1⟩]
      [{1}]).map OverlapRes.overlapRelative = [none] := by
    norm_num [overlapRows, groupedOverlap, overlayPairs, overlapBlock,
      List.filterMap_cons, List.flatMap_cons, List.filter]
  refine ⟨by decide, heval, ?_, hevalRel⟩
  rw [heval]
  simp

/-- C2 (amended): when the hazard zones of one kind are pairwise disjoint
and `AREA_ACRES` is consistent with the land geometry, the summed overlap of
every output row is non-negative and bounded by the row's own land area, and
the relative fraction lies in [0, 1]. -/
theorem overlapRows_bounded_of_disjoint (cras : List OverlapCra)
    (ecas : List (Finset Nat))
    (hnd : (cras.map OverlapCra.cra_no).Nodup)
    (hdisj : ecas.Pairwise (fun a b => a ∩ b = ∅))
    (harea : ∀ c ∈ cras, c.area_acres = (c.geom.card : ℚ) / acreSqMeters) :
    ∀ r ∈ overlapRows cras ecas,
      (∀ a, r.overlapAcres = some a → 0 ≤ a ∧ a ≤ r.area_acres) ∧
      (∀ x, r.overlapRelative = some x → 0 ≤ x ∧ x ≤ 1) := by
  intro r hr
  simp only [overlapRows] at hr
  obtain ⟨c, hc, rfl⟩ := List.mem_map.mp hr
  have hg := groupedOverlap_eq cras ecas c hnd hc
  by_cases hE : (overlapBlock ecas c).isEmpty
  · have hgn : groupedOverlap cras ecas c.cra_no = none := by
      rw [hg, if_pos hE]
    constructor
    · intro a ha
      simp [hgn] at ha
    · intro x hx
      simp [hgn] at hx
  · have hnnil : overlapBlock ecas c ≠ [] := by
      simpa [List.isEmpty_iff] using hE
    have hgs : groupedOverlap cras ecas c.cra_no =
        some ((sumInterCard c.geom ecas : ℚ)) := by
      rw [hg, if_neg hE, overlapBlock_snd_sum]
    have hex : ∃ e ∈ ecas, c.geom ∩ e ≠ ∅ := by
      by_contra hno
      push_neg at hno
      exact hnnil ((overlapBlock_eq_nil ecas c).mpr hno)
    obtain ⟨e, he, hne⟩ := hex
    have hcardpos : 0 < c.geom.card := by
      have hsubs : (c.geom ∩ e) ⊆ c.geom := Finset.inter_subset_left
      have hpos : 0 < (c.geom ∩ e).card :=
        Finset.card_pos.mpr (Finset.nonempty_iff_ne_empty.mpr hne)
      exact lt_of_lt_of_le hpos (Finset.card_le_card hsubs)
    have hacre : (0 : ℚ) < acreSqMeters := by norm_num [acreSqMeters]
    have hareaq : c.area_acres = (c.geom.card : ℚ) / acreSqMeters :=
      harea c hc
    have hareapos : 0 < c.area_acres := by
      rw [hareaq]
      apply div_pos _ hacre
      exact_mod_cast hcardpos
    have hSle : (sumInterCard c.geom ecas : ℚ) ≤ (c.geom.card : ℚ) := by
      exact_mod_cast sumInterCard_le_card ecas c.geom hdisj
    have hS0 : (0 : ℚ) ≤ (sumInterCard c.geom ecas : ℚ) := by positivity
    have hAle : (sumInterCard c.geom ecas : ℚ) / acreSqMeters ≤
        c.area_acres := by
      rw [hareaq]
      exact (div_le_div_iff_of_pos_right hacre).mpr hSle
    constructor
    · intro a ha
      simp only [hgs, Option.map_some'] at ha
      have ha' : a = (sumInterCard c.geom ecas : ℚ) / acreSqMeters :=
        (Option.some.inj ha).symm
      constructor
      · rw [ha']
        positivity
      · rw [ha']
        exact hAle
    · intro x hx
      simp only [hgs, Option.map_some'] at hx
      have hx' : x = ((sumInterCard c.geom ecas : ℚ) / acreSqMeters) /
          c.area_acres :=
        (Option.some.inj hx).symm
      constructor
      · rw [hx']
        exact div_nonneg (div_nonneg hS0 hacre.le) hareapos.le
      · rw [hx']
        exact (div_le_one hareapos).mpr hAle

/-- C2 witness: one area of 2 m² with a single disjoint zone covering half
of it — its overlap, one acre-fraction, is bounded by its land area. -/
theorem overlapRows_bounded_of_disjoint_witness :
    0 ≤ (1 : ℚ) / acreSqMeters ∧
      (1 : ℚ) / acreSqMeters ≤ (2 : ℚ) / acreSqMeters := by
  have hint : ({0, 1} : Finset Nat) ∩ {0} = {0} := by decide
  have heval : overlapRows [⟨0, {0, 1}, (2 : ℚ) / acreSqMeters⟩] [{0}] =
      [⟨0, (2 : ℚ) / acreSqMeters, some ((1 : ℚ) / acreSqMeters),
        some ((1 : ℚ) / sqMileSqMeters),
        some (((1 : ℚ) / acreSqMeters) / ((2 : ℚ) / acreSqMeters))⟩] := by
    norm_num [overlapRows, groupedOverlap, overlayPairs, overlapBlock, hint,
      List.filter, List.flatMap_cons, List.filterMap_cons]
  have h := overlapRows_bounded_of_disjoint
    [⟨0, {0, 1}, (2 : ℚ) / acreSqMeters⟩] [{0}] (by decide) (by simp)
    (by
      intro c hc
      rw [List.mem_singleton] at hc
      subst hc
      norm_num)
    (⟨0, (2 : ℚ) / acreSqMeters, some ((1 : ℚ) / acreSqMeters),
      some ((1 : ℚ) / sqMileSqMeters),
      some (((1 : ℚ) / acreSqMeters) / ((2 : ℚ) / acreSqMeters))⟩ :
        OverlapRes)
    (by rw [heval]; exact List.mem_singleton.mpr rfl)
  exact h.1 ((1 : ℚ) / acreSqMeters) rfl

/-- C2 counterexample to the claim as stated: two identical (overlapping)
hazard zones of the same kind covering one area of 1 m² are double counted —
the summed overlap is twice the area's own land area and the relative
fraction is 2, far outside [0, 1 + ε]. -/
theorem overlap_exceeds_area_on_overlapping_zones :
    ((overlapRows [⟨0, {0}, 1 / acreSqMeters⟩] [{0}, {0}]).map
      OverlapRes.overlapRelative = [some 2]) ∧
    ¬ ((2 : ℚ) ≤ 1 + 1 / 10) ∧
    ((overlapRows [⟨0, {0}, 1 / acreSqMeters⟩] [{0}, {0}]).map
      OverlapRes.overlapAcres = [some (2 / acreSqMeters)]) ∧
    ¬ ((2 / acreSqMeters : ℚ) ≤ (1 / acreSqMeters) * (1 + 1 / 10)) := by
  refine ⟨?_, by norm_num, ?_, by norm_num [acreSqMeters]⟩
  · norm_num [overlapRows, groupedOverlap, overlayPairs, overlapBlock,
      acreSqMeters, List.filterMap_cons, Finset.inter_self,
      Finset.singleton_ne_empty, Finset.card_singleton, List.flatMap_cons,
      List.filter]
    exact ⟨2, ⟨by simp, rfl⟩, by norm_num⟩
  · norm_num [overlapRows, groupedOverlap, overlayPairs, overlapBlock,
      List.filterMap_cons, Finset.inter_self, Finset.singleton_ne_empty,
      Finset.card_singleton, List.flatMap_cons, List.filter]
    exact ⟨2, ⟨by simp, rfl⟩, rfl⟩

/-! ### C7: output schema across optional layers -/

/-- C7 (amended): the output column set of `compile_cra_stats` does not
depend on whether the hazard-zone layers or the permits layer are supplied —
each of those degrades to identically named zero/null-filled columns — but
it is not invariant in the URM layer (see the counterexample). -/
theorem compileSchema_independent_of_hazard_and_permits (base : List String)
    (liq1 liq2 slide1 slide2 perm1 perm2 urm hL hS hR : Bool) :
    compileSchema base liq1 slide1 urm hL hS hR perm1 =
      compileSchema base liq2 slide2 urm hL hS hR perm2 := by
  have hliq : ∀ b : Bool,
      (if b then overlapCols "liquefaction"
       else ["LIQUEFACTION_ACRES", "LIQUEFACTION_SQ_MILES",
             "LIQUEFACTION_RELATIVE"]) =
        ["LIQUEFACTION_ACRES", "LIQUEFACTION_SQ_MILES",
         "LIQUEFACTION_RELATIVE"] := by
    intro b
    cases b
    · rfl
    · decide
  have hslide : ∀ b : Bool,
      (if b then overlapCols "slide"
       else ["SLIDE_ACRES", "SLIDE_SQ_MILES", "SLIDE_RELATIVE"]) =
        ["SLIDE_ACRES", "SLIDE_SQ_MILES", "SLIDE_RELATIVE"] := by
    intro b
    cases b
    · rfl
    · decide
  have hperm : ∀ b : Bool,
      permitsBranchCols b = ["BLDG_PERMIT_COUNT", "RETROFIT_PERMIT_COUNT"] := by
    intro b
    cases b <;> rfl
  simp only [compileSchema, hliq liq1, hliq liq2, hslide slide1,
    hslide slide2, hperm perm1, hperm perm2]

/-- C7 counterexample to the claim as stated: with the URM layer supplied
(even one with none of the optional flag columns) the output gains a
`n_urm_confirmed_retrofit` column that the URM-absent run never creates, so
the two schemas differ. -/
theorem compileSchema_differs_with_urm_layer :
    ("n_urm_confirmed_retrofit" ∈
      compileSchema [] false false true false false false false) ∧
    ("n_urm_confirmed_retrofit" ∉
      compileSchema [] false false false false false false false) ∧
    compileSchema [] false false true false false false false ≠
      compileSchema [] false false false false false false false := by
  refine ⟨by decide, by decide, by decide⟩

end CraPipeline
